import Mathlib

/-!
Verification of the episode lifecycle and error-recovery workflow of the
Parakeet Podcast Processor (P³).

The embedding covers:
* the episode store (records with status and error metadata),
* the CLI commands `digest` (batch summarisation with a retry ceiling),
  `retry`, `mark-processed`, `errors`, `export`, `write` from `p3/cli.py`,
* the schema migration from `p3/migrate_db.py`.

The database access layer (`P3Database`) is not part of the sources; its
operations are modelled from the specification's Episode Store contract
(`list_by_status`, `list_errored`, `record_success`, `record_failure`,
`reset_errors`, `set_status`) and are marked as such below.
-/

namespace P3

/-- An episode record, following the data model: identity, descriptive
titles, pipeline `status`, the error triple (`error_count`, `last_error`,
`error_timestamp`), the stage artifact (`summary`), and the informational
`note` recorded by force-mark-processed. Timestamps are abstracted as
naturals, artifacts as strings. -/
structure Episode where
  id : Nat
  podcast_title : String
  title : String
  status : String
  error_count : Nat
  last_error : Option String
  error_timestamp : Option Nat
  summary : Option String
  note : Option String
deriving Repr, DecidableEq

/-- The episode store: episodes in insertion order. -/
abbrev Store := List Episode

/-- Modelled from the spec: `get(id)` is a point lookup; the store keys
episodes by `id`. -/
def get_episode_by_id (i : Nat) (st : Store) : Option Episode :=
  st.find? (fun e => e.id == i)

/-- Modelled from the spec: `list_by_status(status)` selects episodes whose
status equals the given one, in insertion order. -/
def get_episodes_by_status (s : String) (st : Store) : Store :=
  st.filter (fun e => e.status == s)

/-- Modelled from the spec: `list_errored()` returns all episodes with
`error_count > 0`, regardless of current status. -/
def get_error_episodes (st : Store) : Store :=
  st.filter (fun e => decide (0 < e.error_count))

/-- Apply `f` to the episode(s) with id `i`, leaving everything else as is.
All store mutations are single-episode updates of this shape. -/
def updateEpisode (i : Nat) (f : Episode → Episode) (st : Store) : Store :=
  st.map (fun e => if e.id == i then f e else e)

/-- Per-episode effect of a status override. -/
def statusF (s : String) (e : Episode) : Episode := { e with status := s }

/-- Per-episode effect of an error reset. -/
def resetF (e : Episode) : Episode :=
  { e with error_count := 0, last_error := none, error_timestamp := none }

/-- Per-episode effect of force-mark-processed. -/
def markF (reason : Option String) (e : Episode) : Episode :=
  { e with status := "processed", note := reason }

/-- Per-episode effect of recording a stage success. -/
def successF (s artifact : String) (e : Episode) : Episode :=
  { e with status := s, summary := some artifact }

/-- Per-episode effect of recording a stage failure. -/
def failF (msg : String) (now : Nat) (e : Episode) : Episode :=
  { e with error_count := e.error_count + 1,
           last_error := some msg, error_timestamp := some now }

/-- Modelled from the spec: `set_status(id, status)` — direct status
override used by recovery flows. -/
def update_episode_status (i : Nat) (s : String) (st : Store) : Store :=
  updateEpisode i (statusF s) st

/-- Modelled from the spec: `reset_errors(id)` atomically zeroes
`error_count` and nulls `last_error` / `error_timestamp`. -/
def reset_episode_errors (i : Nat) (st : Store) : Store :=
  updateEpisode i resetF st

/-- Modelled from the spec: force-mark-processed sets `status = 'processed'`
directly and records the reason as an informational note, not as
`last_error`; the error triple is untouched. -/
def mark_episode_as_processed (i : Nat) (reason : Option String) (st : Store) : Store :=
  updateEpisode i (markF reason) st

/-- Modelled from the spec: `record_success(id, new_status, artifact)`
atomically sets the status and attaches the artifact; error fields are not
touched. -/
def record_success (i : Nat) (s : String) (artifact : String) (st : Store) : Store :=
  updateEpisode i (successF s artifact) st

/-- Modelled from the spec: `record_failure(id, message)` atomically
increments `error_count`, overwrites `last_error` and `error_timestamp`,
and leaves `status` unchanged. -/
def record_failure (i : Nat) (msg : String) (now : Nat) (st : Store) : Store :=
  updateEpisode i (failF msg now) st

/-- Modelled from the spec: `TranscriptCleaner.generate_summary(episode_id)`
invokes the summarisation stage executor and records the outcome in the
store: success attaches the artifact and advances the status to
`processed`; failure records the reason. The executor itself is the
parameter `outcome`. Returns the truthiness of the result together with
the updated store. -/
def generate_summary (outcome : Nat → Except String String) (now : Nat)
    (st : Store) (i : Nat) : Bool × Store :=
  match outcome i with
  | Except.ok artifact => (true, record_success i "processed" artifact st)
  | Except.error msg => (false, record_failure i msg now st)

/-- The batch loop of `digest` (cli.py, `for episode in track(episodes, ...)`):
episodes at or above `maxRetries` errors are skipped; otherwise the episode
is summarised and the processed/failed counters advance. -/
def digestGo (outcome : Nat → Except String String) (now maxRetries : Nat) :
    List Episode → Nat → Nat → Store → Nat × Nat × Store
  | [], p, f, st => (p, f, st)
  | e :: rest, p, f, st =>
    if maxRetries ≤ e.error_count then digestGo outcome now maxRetries rest p f st
    else
      let r := generate_summary outcome now st e.id
      if r.1 then digestGo outcome now maxRetries rest (p + 1) f r.2
      else digestGo outcome now maxRetries rest p (f + 1) r.2

/-- The `digest` command's batch path (cli.py `digest`): select the
transcribed episodes, then run the batch loop. Returns the reported
(processed, failed) counts and the final store. -/
def digest_batch (outcome : Nat → Except String String) (now maxRetries : Nat)
    (st : Store) : Nat × Nat × Store :=
  digestGo outcome now maxRetries (get_episodes_by_status "transcribed" st) 0 0 st

/-- Companion loop with no skip check, used to state which episodes the
batch actually processes: it summarises every episode of its input list. -/
def digestRunAll (outcome : Nat → Except String String) (now : Nat) :
    List Episode → Nat → Nat → Store → Nat × Nat × Store
  | [], p, f, st => (p, f, st)
  | e :: rest, p, f, st =>
    let r := generate_summary outcome now st e.id
    if r.1 then digestRunAll outcome now rest (p + 1) f r.2
    else digestRunAll outcome now rest p (f + 1) r.2

/-- The batch-selection set of `digest`: transcribed episodes whose error
count is strictly below the retry ceiling. -/
def digestSelected (maxRetries : Nat) (st : Store) : List Episode :=
  (get_episodes_by_status "transcribed" st).filter (fun e => decide (e.error_count < maxRetries))

/-- Whether a stage outcome is a success. -/
def okB : Except String String → Bool
  | Except.ok _ => true
  | Except.error _ => false

/-- The single-episode path of the `retry` command (cli.py `retry`,
`--episode-id`): if the episode exists, optionally reset its errors, then
set its status back to `downloaded`. -/
def retry_single (i : Nat) (resetErrors : Bool) (st : Store) : Store :=
  match get_episode_by_id i st with
  | none => st
  | some _ =>
    let st1 := if resetErrors then reset_episode_errors i st else st
    update_episode_status i "downloaded" st1

/-- One iteration of the `retry --all` loop. -/
def retryStep (resetErrors : Bool) (st : Store) (ep : Episode) : Store :=
  update_episode_status ep.id "downloaded"
    (if resetErrors then reset_episode_errors ep.id st else st)

/-- The `retry --all` path (cli.py `retry`): for every episode in the
errored listing, optionally reset its errors, then set its status back to
`downloaded`. An empty errored listing leaves the store as is. -/
def retry_all (resetErrors : Bool) (st : Store) : Store :=
  (get_error_episodes st).foldl (retryStep resetErrors) st

/-- The four legal status values. -/
def validStatuses : List String := ["downloaded", "transcribed", "processed", "failed"]

/-- The status-normalising UPDATE of `migrate_db.py`: every episode whose
status is outside the four enumerated values is rewritten to `downloaded`. -/
def normalize_statuses (st : Store) : Store :=
  st.map (fun e => if validStatuses.contains e.status then e else { e with status := "downloaded" })

/-- A database: the `episodes` table's column names and its rows. -/
structure Database where
  columns : List String
  episodes : Store
deriving Repr, DecidableEq

/-- The column part of `migrate_db.py`: the set of already-present error
columns is computed once, then each missing column is appended. -/
def migrate_columns (cols : List String) : List String :=
  let cols1 := if "error_count" ∈ cols then cols else cols ++ ["error_count"]
  let cols2 := if "last_error" ∈ cols then cols1 else cols1 ++ ["last_error"]
  if "error_timestamp" ∈ cols then cols2 else cols2 ++ ["error_timestamp"]

/-- `migrate_database` (migrate_db.py): add the missing error columns, then
normalise every out-of-range status to `downloaded`. -/
def migrate_database (db : Database) : Database :=
  { columns := migrate_columns db.columns,
    episodes := normalize_statuses db.episodes }

/-! Concrete data used by witnesses and counterexamples. -/

/-- A transcribed episode at the retry ceiling, with recorded errors. -/
def epA : Episode :=
  { id := 1, podcast_title := "Show", title := "Ep1", status := "transcribed",
    error_count := 3, last_error := some "llm timeout", error_timestamp := some 5,
    summary := none, note := none }

/-- A cleanly processed episode with no errors. -/
def epZ : Episode :=
  { id := 2, podcast_title := "Show", title := "Ep2", status := "processed",
    error_count := 0, last_error := none, error_timestamp := none,
    summary := some "done", note := none }

/-- A clean transcribed episode. -/
def epT : Episode :=
  { id := 1, podcast_title := "Show", title := "Ep3", status := "transcribed",
    error_count := 0, last_error := none, error_timestamp := none,
    summary := none, note := none }

/-- A stage executor that always succeeds. -/
def oW : Nat → Except String String := fun _ => Except.ok "sum"

/-- An episode stuck with a status outside the four legal values. -/
def epX : Episode :=
  { id := 3, podcast_title := "Show", title := "Ep4", status := "stuck",
    error_count := 0, last_error := none, error_timestamp := none,
    summary := none, note := none }

/-! Store lemmas: how point lookups interact with single-episode updates. -/

theorem get_update (f : Episode → Episode) (hf : ∀ e, (f e).id = e.id) (i j : Nat)
    (st : Store) :
    get_episode_by_id j (updateEpisode i f st) =
      Option.map (fun e => if e.id == i then f e else e) (get_episode_by_id j st) := by
  induction st with
  | nil => rfl
  | cons x t ih =>
    have hid : (if x.id == i then f x else x).id = x.id := by
      by_cases h : x.id == i <;> simp [h, hf]
    by_cases hj : x.id = j
    · have hb : ((if x.id == i then f x else x).id == j) = true := by
        rw [hid]; simpa using hj
      have hb' : (x.id == j) = true := by simpa using hj
      simp only [get_episode_by_id, updateEpisode, List.map_cons, List.find?, hb, hb',
        Option.map]
    · have hb : (x.id == j) = false := by simpa using hj
      have hb2 : ((if x.id == i then f x else x).id == j) = false := by
        rw [hid]; exact hb
      simp only [get_episode_by_id, updateEpisode, List.map_cons, List.find?, hb, hb2]
      exact ih

theorem get_update_ne (f : Episode → Episode) (hf : ∀ e, (f e).id = e.id) {i j : Nat}
    (hne : j ≠ i) (st : Store) :
    get_episode_by_id j (updateEpisode i f st) = get_episode_by_id j st := by
  rw [get_update f hf i j st]
  cases h : get_episode_by_id j st with
  | none => rfl
  | some e =>
    have he : e.id = j := by
      have := List.find?_some h
      simpa using this
    simp [he, hne]

theorem get_update_eq (f : Episode → Episode) (hf : ∀ e, (f e).id = e.id) (i : Nat)
    (st : Store) :
    get_episode_by_id i (updateEpisode i f st) = Option.map f (get_episode_by_id i st) := by
  rw [get_update f hf i i st]
  cases h : get_episode_by_id i st with
  | none => rfl
  | some e =>
    have he : e.id = i := by
      have := List.find?_some h
      simpa using this
    simp [he]

theorem get_self {st : Store} (hn : (st.map Episode.id).Nodup) {e : Episode}
    (he : e ∈ st) : get_episode_by_id e.id st = some e := by
  induction st with
  | nil => cases he
  | cons x t ih =>
    have hn' : x.id ∉ t.map Episode.id ∧ (t.map Episode.id).Nodup := by
      rw [List.map_cons, List.nodup_cons] at hn; exact hn
    rcases List.mem_cons.1 he with rfl | ht
    · simp [get_episode_by_id, List.find?]
    · have hx : (x.id == e.id) = false := by
        have : x.id ≠ e.id := by
          intro hcontra
          exact hn'.1 (hcontra ▸ List.mem_map_of_mem Episode.id ht)
        simpa using this
      simp only [get_episode_by_id, List.find?, hx]
      exact ih hn'.2 ht

theorem nodup_ids_filter (q : Episode → Bool) {st : Store}
    (hn : (st.map Episode.id).Nodup) : ((st.filter q).map Episode.id).Nodup :=
  List.Nodup.sublist (List.Sublist.map Episode.id (List.filter_sublist st)) hn

theorem get_foldl_ne (step : Store → Episode → Store)
    (hstep : ∀ st ep i, i ≠ ep.id → get_episode_by_id i (step st ep) = get_episode_by_id i st) :
    ∀ (l : List Episode) (st : Store) (i : Nat), (∀ ep ∈ l, i ≠ ep.id) →
      get_episode_by_id i (l.foldl step st) = get_episode_by_id i st := by
  intro l
  induction l with
  | nil => intro st i _; rfl
  | cons x t ih =>
    intro st i hi
    rw [List.foldl_cons, ih _ i (fun ep h => hi ep (List.mem_cons_of_mem _ h)),
        hstep st x i (hi x (List.mem_cons_self _ _))]

/-! Lemmas on the `retry --all` and `mark-processed --podcast` loops. -/

theorem get_retryStep_ne (r : Bool) (st : Store) (ep : Episode) (i : Nat)
    (h : i ≠ ep.id) :
    get_episode_by_id i (retryStep r st ep) = get_episode_by_id i st := by
  cases r with
  | false =>
    show get_episode_by_id i (update_episode_status ep.id "downloaded" st) = _
    rw [update_episode_status, get_update_ne (statusF "downloaded") (fun e => rfl) h]
  | true =>
    show get_episode_by_id i
        (update_episode_status ep.id "downloaded" (reset_episode_errors ep.id st)) = _
    rw [update_episode_status, get_update_ne (statusF "downloaded") (fun e => rfl) h,
        reset_episode_errors, get_update_ne resetF (fun e => rfl) h]

theorem get_retryStep_eq (r : Bool) (st : Store) (ep x : Episode)
    (h : get_episode_by_id ep.id st = some x) :
    get_episode_by_id ep.id (retryStep r st ep) =
      some (if r then { x with status := "downloaded", error_count := 0,
                               last_error := none, error_timestamp := none }
            else { x with status := "downloaded" }) := by
  cases r with
  | false =>
    show get_episode_by_id ep.id (update_episode_status ep.id "downloaded" st) = _
    rw [update_episode_status, get_update_eq (statusF "downloaded") (fun e => rfl), h]
    rfl
  | true =>
    show get_episode_by_id ep.id
        (update_episode_status ep.id "downloaded" (reset_episode_errors ep.id st)) = _
    rw [update_episode_status, get_update_eq (statusF "downloaded") (fun e => rfl),
        reset_episode_errors, get_update_eq resetF (fun e => rfl), h]
    rfl

theorem get_retry_foldl_hit (r : Bool) :
    ∀ (l : List Episode) (st : Store) (ep x : Episode),
      (l.map Episode.id).Nodup → ep ∈ l → get_episode_by_id ep.id st = some x →
      get_episode_by_id ep.id (l.foldl (retryStep r) st) =
        some (if r then { x with status := "downloaded", error_count := 0,
                                 last_error := none, error_timestamp := none }
              else { x with status := "downloaded" }) := by
  intro l
  induction l with
  | nil => intro st ep x _ hmem; cases hmem
  | cons a t ih =>
    intro st ep x hn hmem hx
    have hn' : a.id ∉ t.map Episode.id ∧ (t.map Episode.id).Nodup := by
      rw [List.map_cons, List.nodup_cons] at hn; exact hn
    rcases List.mem_cons.1 hmem with rfl | ht
    · rw [List.foldl_cons,
        get_foldl_ne (retryStep r) (fun s e i h => get_retryStep_ne r s e i h) t _ ep.id
          (fun q hq hc => hn'.1 (hc ▸ List.mem_map_of_mem Episode.id hq))]
      exact get_retryStep_eq r st ep x hx
    · have ha : ep.id ≠ a.id := by
        intro hc
        exact hn'.1 (hc ▸ List.mem_map_of_mem Episode.id ht)
      rw [List.foldl_cons]
      exact ih _ ep x hn'.2 ht (by rw [get_retryStep_ne r st a ep.id ha]; exact hx)

theorem digestRunAll_cons_ok (o : Nat → Except String String) (now : Nat) (e : Episode)
    (t : List Episode) (p f : Nat) (st : Store) (a : String) (h : o e.id = Except.ok a) :
    digestRunAll o now (e :: t) p f st =
      digestRunAll o now t (p + 1) f (record_success e.id "processed" a st) := by
  simp [digestRunAll, generate_summary, h]

theorem digestRunAll_cons_err (o : Nat → Except String String) (now : Nat) (e : Episode)
    (t : List Episode) (p f : Nat) (st : Store) (m : String) (h : o e.id = Except.error m) :
    digestRunAll o now (e :: t) p f st =
      digestRunAll o now t p (f + 1) (record_failure e.id m now st) := by
  simp [digestRunAll, generate_summary, h]

theorem digestRunAll_counts (o : Nat → Except String String) (now : Nat) :
    ∀ (l : List Episode) (p f : Nat) (st : Store),
      (digestRunAll o now l p f st).1 = p + (l.filter (fun e => okB (o e.id))).length ∧
      (digestRunAll o now l p f st).2.1 = f + (l.filter (fun e => !okB (o e.id))).length := by
  intro l
  induction l with
  | nil => intro p f st; simp [digestRunAll]
  | cons e t ih =>
    intro p f st
    cases h : o e.id with
    | ok a =>
      have hb : okB (o e.id) = true := by rw [h]; rfl
      rw [digestRunAll_cons_ok o now e t p f st a h]
      rcases ih (p + 1) f (record_success e.id "processed" a st) with ⟨ih1, ih2⟩
      refine ⟨?_, ?_⟩
      · rw [ih1, List.filter_cons]
        simp [hb]
        omega
      · rw [ih2, List.filter_cons]
        simp [hb]
    | error m =>
      have hb : okB (o e.id) = false := by rw [h]; rfl
      rw [digestRunAll_cons_err o now e t p f st m h]
      rcases ih p (f + 1) (record_failure e.id m now st) with ⟨ih1, ih2⟩
      refine ⟨?_, ?_⟩
      · rw [ih1, List.filter_cons]
        simp [hb]
      · rw [ih2, List.filter_cons]
        simp [hb]
        omega

theorem digestRunAll_get_ne (o : Nat → Except String String) (now : Nat) :
    ∀ (l : List Episode) (p f : Nat) (st : Store) (i : Nat), (∀ e ∈ l, i ≠ e.id) →
      get_episode_by_id i (digestRunAll o now l p f st).2.2 = get_episode_by_id i st := by
  intro l
  induction l with
  | nil => intro p f st i _; rfl
  | cons e t ih =>
    intro p f st i hi
    have hie : i ≠ e.id := hi e (List.mem_cons_self _ _)
    have hit : ∀ q ∈ t, i ≠ q.id := fun q hq => hi q (List.mem_cons_of_mem _ hq)
    cases h : o e.id with
    | ok a =>
      rw [digestRunAll_cons_ok o now e t p f st a h, ih _ _ _ i hit,
          record_success, get_update_ne (successF "processed" a) (fun x => rfl) hie]
    | error m =>
      rw [digestRunAll_cons_err o now e t p f st m h, ih _ _ _ i hit,
          record_failure, get_update_ne (failF m now) (fun x => rfl) hie]

theorem digestRunAll_get_hit (o : Nat → Except String String) (now : Nat) :
    ∀ (l : List Episode) (p f : Nat) (st : Store) (e : Episode) (a : String),
      (l.map Episode.id).Nodup → e ∈ l → o e.id = Except.ok a →
      get_episode_by_id e.id (digestRunAll o now l p f st).2.2 =
        Option.map (fun x => { x with status := "processed", summary := some a })
          (get_episode_by_id e.id st) := by
  intro l
  induction l with
  | nil => intro p f st e a _ hmem; cases hmem
  | cons q t ih =>
    intro p f st e a hn hmem ho
    have hn' : q.id ∉ t.map Episode.id ∧ (t.map Episode.id).Nodup := by
      rw [List.map_cons, List.nodup_cons] at hn; exact hn
    rcases List.mem_cons.1 hmem with rfl | ht
    · rw [digestRunAll_cons_ok o now e t p f st a ho,
        digestRunAll_get_ne o now t _ _ _ e.id
          (fun x hx hc => hn'.1 (hc ▸ List.mem_map_of_mem Episode.id hx)),
        record_success, get_update_eq (successF "processed" a) (fun x => rfl)]
      rfl
    · have hq : e.id ≠ q.id := by
        intro hc
        exact hn'.1 (hc ▸ List.mem_map_of_mem Episode.id ht)
      cases h : o q.id with
      | ok b =>
        rw [digestRunAll_cons_ok o now q t p f st b h, ih _ _ _ e a hn'.2 ht ho,
            record_success, get_update_ne (successF "processed" b) (fun x => rfl) hq]
      | error m =>
        rw [digestRunAll_cons_err o now q t p f st m h, ih _ _ _ e a hn'.2 ht ho,
            record_failure, get_update_ne (failF m now) (fun x => rfl) hq]

theorem digestGo_eq_runAll (o : Nat → Except String String) (now R : Nat) :
    ∀ (l : List Episode) (p f : Nat) (st : Store),
      digestGo o now R l p f st =
        digestRunAll o now (l.filter (fun e => decide (e.error_count < R))) p f st := by
  intro l
  induction l with
  | nil => intro p f st; rfl
  | cons e t ih =>
    intro p f st
    by_cases h : R ≤ e.error_count
    · have hd : decide (e.error_count < R) = false := by
        simp [Nat.not_lt.2 h]
      rw [show digestGo o now R (e :: t) p f st = digestGo o now R t p f st from by
            simp [digestGo, h],
          List.filter_cons, hd]
      simp only [Bool.false_eq_true, if_false]
      exact ih p f st
    · have hd : decide (e.error_count < R) = true := by
        simp [Nat.lt_of_not_le h]
      rw [List.filter_cons, hd]
      simp only [if_true]
      cases ho : o e.id with
      | ok a =>
        rw [digestRunAll_cons_ok o now e _ p f st a ho,
            show digestGo o now R (e :: t) p f st
              = digestGo o now R t (p + 1) f (record_success e.id "processed" a st) from by
              simp [digestGo, h, generate_summary, ho]]
        exact ih _ _ _
      | error m =>
        rw [digestRunAll_cons_err o now e _ p f st m ho,
            show digestGo o now R (e :: t) p f st
              = digestGo o now R t p (f + 1) (record_failure e.id m now st) from by
              simp [digestGo, h, generate_summary, ho]]
        exact ih _ _ _

theorem digest_batch_eq_runAll (o : Nat → Except String String) (now R : Nat) (st : Store) :
    digest_batch o now R st = digestRunAll o now (digestSelected R st) 0 0 st := by
  rw [digest_batch, digestGo_eq_runAll, digestSelected]

/-- Claim C1 (amended): a digest batch with max-retries `R` processes exactly
the episodes whose status is `transcribed` and whose `error_count` is
strictly below `R`; every episode at or above the ceiling is excluded from
the batch selection, and — provided `R ≥ 1` — every such episode still
appears in the errored listing. (For `R = 0` a clean transcribed episode is
skipped yet absent from the errored listing.) -/
theorem c1_retry_ceiling (o : Nat → Except String String) (now R : Nat) (st : Store) :
    digest_batch o now R st = digestRunAll o now (digestSelected R st) 0 0 st ∧
    (∀ e ∈ digestSelected R st, e.status = "transcribed" ∧ e.error_count < R) ∧
    (∀ e ∈ st, R ≤ e.error_count → e ∉ digestSelected R st) ∧
    (1 ≤ R → ∀ e ∈ st, R ≤ e.error_count → e ∈ get_error_episodes st) := by
  refine ⟨digest_batch_eq_runAll o now R st, ?_, ?_, ?_⟩
  · intro e he
    rw [digestSelected, List.mem_filter] at he
    rcases he with ⟨he1, he2⟩
    rw [get_episodes_by_status, List.mem_filter] at he1
    exact ⟨by simpa using he1.2, by simpa using he2⟩
  · intro e _ hR hmem
    rw [digestSelected, List.mem_filter] at hmem
    have h2 : e.error_count < R := by simpa using hmem.2
    omega
  · intro hR e he hce
    rw [get_error_episodes, List.mem_filter]
    refine ⟨he, ?_⟩
    simp only [decide_eq_true_eq]
    omega

/-- Claim C1 counterexample: with `max_retries = 0` the clean transcribed
episode `epT` (error_count 0) is skipped by the batch — the batch processes
nothing and leaves the store unchanged — yet it does not appear in the
errored listing, refuting the claim as stated. -/
theorem c1_counterexample :
    0 ≤ epT.error_count ∧
    digestSelected 0 [epT] = [] ∧
    digest_batch oW 0 0 [epT] = (0, 0, [epT]) ∧
    epT ∉ get_error_episodes [epT] := by
  refine ⟨by decide, by decide, ?_, by decide⟩
  decide

/-- Claim C2: for an existing episode id, `retry` with `reset_errors=true`
followed by a read yields status `downloaded`, `error_count = 0` and
`last_error = none`. -/
theorem c2_recovery_roundtrip (st : Store) (i : Nat) (ep : Episode)
    (h : get_episode_by_id i st = some ep) :
    ∃ e', get_episode_by_id i (retry_single i true st) = some e' ∧
      e'.status = "downloaded" ∧ e'.error_count = 0 ∧ e'.last_error = none := by
  refine ⟨statusF "downloaded" (resetF ep), ?_, rfl, rfl, rfl⟩
  unfold retry_single
  rw [h]
  show get_episode_by_id i
      (update_episode_status i "downloaded" (reset_episode_errors i st)) = _
  rw [update_episode_status, get_update_eq (statusF "downloaded") (fun e => rfl),
      reset_episode_errors, get_update_eq resetF (fun e => rfl), h]
  rfl

/-- Claim C4: force-mark-processed sets only the status (to `processed`);
the error triple is unchanged and the supplied reason lands in the
informational note, never in `last_error`. -/
theorem c4_mark_processed_frame (st : Store) (i : Nat) (ep : Episode)
    (reason : Option String) (h : get_episode_by_id i st = some ep) :
    ∃ e', get_episode_by_id i (mark_episode_as_processed i reason st) = some e' ∧
      e'.status = "processed" ∧ e'.error_count = ep.error_count ∧
      e'.last_error = ep.last_error ∧ e'.error_timestamp = ep.error_timestamp ∧
      e'.note = reason := by
  refine ⟨markF reason ep, ?_, rfl, rfl, rfl, rfl, rfl⟩
  rw [mark_episode_as_processed, get_update_eq (markF reason) (fun e => rfl), h]
  rfl

/-- Claim C9 (implicit): single-episode retry is unconditional — for any
existing episode, whatever its status or error count and whether or not
errors are reset, the episode's status afterwards is `downloaded`. -/
theorem c9_retry_unconditional (st : Store) (i : Nat) (ep : Episode) (r : Bool)
    (h : get_episode_by_id i st = some ep) :
    ∃ e', get_episode_by_id i (retry_single i r st) = some e' ∧
      e'.status = "downloaded" := by
  cases r with
  | false =>
    refine ⟨statusF "downloaded" ep, ?_, rfl⟩
    unfold retry_single
    rw [h]
    show get_episode_by_id i (update_episode_status i "downloaded" st) = _
    rw [update_episode_status, get_update_eq (statusF "downloaded") (fun e => rfl), h]
    rfl
  | true =>
    refine ⟨statusF "downloaded" (resetF ep), ?_, rfl⟩
    unfold retry_single
    rw [h]
    show get_episode_by_id i
        (update_episode_status i "downloaded" (reset_episode_errors i st)) = _
    rw [update_episode_status, get_update_eq (statusF "downloaded") (fun e => rfl),
        reset_episode_errors, get_update_eq resetF (fun e => rfl), h]
    rfl

/-- Claim C3: `retry --all` targets exactly the errored set: with unique
episode ids, an empty errored listing causes no mutation, episodes with
`error_count = 0` are left unchanged, and every errored episode ends with
status `downloaded`, its error fields additionally reset exactly when the
`reset_errors` flag is given. -/
theorem c3_retry_all (r : Bool) (st : Store) (hn : (st.map Episode.id).Nodup) :
    (get_error_episodes st = [] → retry_all r st = st) ∧
    (∀ e ∈ st, e.error_count = 0 → get_episode_by_id e.id (retry_all r st) = some e) ∧
    (∀ e ∈ st, 0 < e.error_count →
      get_episode_by_id e.id (retry_all r st) =
        some (if r then { e with status := "downloaded", error_count := 0,
                                 last_error := none, error_timestamp := none }
              else { e with status := "downloaded" })) := by
  refine ⟨?_, ?_, ?_⟩
  · intro hempty
    rw [retry_all, hempty]
    rfl
  · intro e he hec
    rw [retry_all,
        get_foldl_ne (retryStep r) (fun s q i h => get_retryStep_ne r s q i h) _ _ _ ?_]
    · exact get_self hn he
    · intro q hq hc
      rw [get_error_episodes, List.mem_filter] at hq
      have heq : e = q := List.inj_on_of_nodup_map hn he hq.1 hc
      have hpos : 0 < q.error_count := by simpa using hq.2
      rw [← heq] at hpos
      omega
  · intro e he hec
    have hq : e ∈ get_error_episodes st := by
      rw [get_error_episodes, List.mem_filter]
      exact ⟨he, by simpa using hec⟩
    have hnerr : ((get_error_episodes st).map Episode.id).Nodup := nodup_ids_filter _ hn
    rw [retry_all]
    exact get_retry_foldl_hit r _ st e e hnerr hq (get_self hn he)

/-- Claim C6: a digest batch reports the counts of episodes that succeeded
and failed, and — with unique ids — every successfully processed episode is
advanced to `processed` with its artifact attached in the final store,
regardless of other episodes' failures; the batch is a total function and
cannot abort on an individual failure. -/
theorem c6_partial_progress (o : Nat → Except String String) (now R : Nat) (st : Store)
    (hn : (st.map Episode.id).Nodup) :
    (digest_batch o now R st).1 =
      ((digestSelected R st).filter (fun e => okB (o e.id))).length ∧
    (digest_batch o now R st).2.1 =
      ((digestSelected R st).filter (fun e => !okB (o e.id))).length ∧
    (∀ e ∈ st, e.status = "transcribed" → e.error_count < R →
      ∀ a, o e.id = Except.ok a →
        get_episode_by_id e.id (digest_batch o now R st).2.2 =
          some { e with status := "processed", summary := some a }) := by
  rw [digest_batch_eq_runAll o now R st]
  rcases digestRunAll_counts o now (digestSelected R st) 0 0 st with ⟨h1, h2⟩
  refine ⟨by rw [h1]; simp, by rw [h2]; simp, ?_⟩
  intro e he hst hec a ho
  have hmem : e ∈ digestSelected R st := by
    rw [digestSelected, List.mem_filter]
    refine ⟨?_, by simpa using hec⟩
    rw [get_episodes_by_status, List.mem_filter]
    exact ⟨he, by simp [hst]⟩
  have hnsel : ((digestSelected R st).map Episode.id).Nodup := by
    rw [digestSelected, get_episodes_by_status]
    exact nodup_ids_filter _ (nodup_ids_filter _ hn)
  rw [digestRunAll_get_hit o now (digestSelected R st) 0 0 st e a hnsel hmem ho,
      get_self hn he]
  rfl

/-- Claim C8: the migration's status normalisation rewrites every episode
whose status is outside the four enumerated values to `downloaded`, leaves
episodes with a legal status unchanged, and afterwards every episode's
status is one of the four values. -/
theorem c8_status_enum_migration (st : Store) (e : Episode) (he : e ∈ st) :
    (validStatuses.contains e.status = true → e ∈ normalize_statuses st) ∧
    (validStatuses.contains e.status = false →
      { e with status := "downloaded" } ∈ normalize_statuses st) ∧
    (∀ x ∈ normalize_statuses st, validStatuses.contains x.status = true) := by
  refine ⟨?_, ?_, ?_⟩
  · intro hv
    have hv' : e.status ∈ validStatuses := by simpa using hv
    rw [normalize_statuses]
    have hmm := List.mem_map_of_mem
      (fun q : Episode => if validStatuses.contains q.status then q
        else { q with status := "downloaded" }) he
    simpa [hv'] using hmm
  · intro hv
    have hv' : e.status ∉ validStatuses := by simpa using hv
    rw [normalize_statuses]
    have hmm := List.mem_map_of_mem
      (fun q : Episode => if validStatuses.contains q.status then q
        else { q with status := "downloaded" }) he
    simpa [hv'] using hmm
  · intro x hx
    rw [normalize_statuses] at hx
    rcases List.mem_map.1 hx with ⟨y, _, hxy⟩
    rw [← hxy]
    by_cases hv : validStatuses.contains y.status = true
    · rw [if_pos hv]
      exact hv
    · rw [if_neg hv]
      rfl

theorem mem_migrate_columns_ec (cols : List String) :
    "error_count" ∈ migrate_columns cols := by
  by_cases h1 : "error_count" ∈ cols <;>
    by_cases h2 : "last_error" ∈ cols <;>
      by_cases h3 : "error_timestamp" ∈ cols <;>
        simp [migrate_columns, h1, h2, h3]

theorem mem_migrate_columns_le (cols : List String) :
    "last_error" ∈ migrate_columns cols := by
  by_cases h1 : "error_count" ∈ cols <;>
    by_cases h2 : "last_error" ∈ cols <;>
      by_cases h3 : "error_timestamp" ∈ cols <;>
        simp [migrate_columns, h1, h2, h3]

theorem mem_migrate_columns_et (cols : List String) :
    "error_timestamp" ∈ migrate_columns cols := by
  by_cases h1 : "error_count" ∈ cols <;>
    by_cases h2 : "last_error" ∈ cols <;>
      by_cases h3 : "error_timestamp" ∈ cols <;>
        simp [migrate_columns, h1, h2, h3]

/-- Claim C10 (implicit): the schema migration is idempotent — a second run
finds every error column already present, appends nothing, and returns the
schema of the first run unchanged. -/
theorem c10_migration_idempotent (db : Database) :
    (migrate_database (migrate_database db)).columns = (migrate_database db).columns := by
  show migrate_columns (migrate_columns db.columns) = migrate_columns db.columns
  have h1 := mem_migrate_columns_ec db.columns
  have h2 := mem_migrate_columns_le db.columns
  have h3 := mem_migrate_columns_et db.columns
  conv_lhs => rw [migrate_columns]
  simp [h1, h2, h3]

/-! Witnesses: each applies its claim's theorem at concrete inputs. -/

/-- Witness for C1 at `R = 3` and a store with an episode at the ceiling. -/
theorem c1_witness :
    1 ≤ 3 ∧ epA ∈ get_error_episodes [epA, epZ] :=
  ⟨by decide,
   (c1_retry_ceiling oW 0 3 [epA, epZ]).2.2.2 (by decide) epA (by decide) (by decide)⟩

/-- Witness for C2 on episode 1 of a two-episode store. -/
theorem c2_witness :
    get_episode_by_id 1 [epA, epZ] = some epA ∧
    (∃ e', get_episode_by_id 1 (retry_single 1 true [epA, epZ]) = some e' ∧
      e'.status = "downloaded" ∧ e'.error_count = 0 ∧ e'.last_error = none) :=
  ⟨by decide, c2_recovery_roundtrip [epA, epZ] 1 epA (by decide)⟩

/-- Witness for C3: errored `epA` is rewound and reset, clean `epZ` untouched. -/
theorem c3_witness :
    (([epA, epZ].map Episode.id).Nodup) ∧
    get_episode_by_id 2 (retry_all true [epA, epZ]) = some epZ ∧
    get_episode_by_id 1 (retry_all true [epA, epZ]) =
      some { epA with status := "downloaded", error_count := 0,
                      last_error := none, error_timestamp := none } :=
  ⟨by decide,
   (c3_retry_all true [epA, epZ] (by decide)).2.1 epZ (by decide) (by decide),
   (c3_retry_all true [epA, epZ] (by decide)).2.2 epA (by decide) (by decide)⟩

/-- Witness for C4 on episode 1 with a concrete reason. -/
theorem c4_witness :
    get_episode_by_id 1 [epA, epZ] = some epA ∧
    (∃ e', get_episode_by_id 1
        (mark_episode_as_processed 1 (some "manual fix") [epA, epZ]) = some e' ∧
      e'.status = "processed" ∧ e'.error_count = epA.error_count ∧
      e'.last_error = epA.last_error ∧ e'.error_timestamp = epA.error_timestamp ∧
      e'.note = some "manual fix") :=
  ⟨by decide, c4_mark_processed_frame [epA, epZ] 1 epA (some "manual fix") (by decide)⟩

/-- Witness for C6: the clean transcribed episode is advanced and persists. -/
theorem c6_witness :
    (([epT].map Episode.id).Nodup) ∧
    get_episode_by_id 1 (digest_batch oW 0 3 [epT]).2.2 =
      some { epT with status := "processed", summary := some "sum" } :=
  ⟨by decide,
   (c6_partial_progress oW 0 3 [epT] (by decide)).2.2 epT (by decide) (by decide)
     (by decide) "sum" rfl⟩

/-- Witness for C8 on a store holding an episode with an illegal status. -/
theorem c8_witness :
    epX ∈ [epX] ∧
    ((validStatuses.contains epX.status = true → epX ∈ normalize_statuses [epX]) ∧
     (validStatuses.contains epX.status = false →
       { epX with status := "downloaded" } ∈ normalize_statuses [epX]) ∧
     (∀ x ∈ normalize_statuses [epX], validStatuses.contains x.status = true)) :=
  ⟨by decide, c8_status_enum_migration [epX] epX (by decide)⟩

/-- Witness for C9 on a cleanly processed episode, without error reset. -/
theorem c9_witness :
    get_episode_by_id 2 [epZ] = some epZ ∧
    (∃ e', get_episode_by_id 2 (retry_single 2 false [epZ]) = some e' ∧
      e'.status = "downloaded") :=
  ⟨by decide, c9_retry_unconditional [epZ] 2 epZ false (by decide)⟩

end P3
